import Mathlib

/-!
Shallow embedding of the `dao-governance-monitor` repository, faithful to the
Python sources under `src/`:

* `src/monitoring/state_manager.py` — the SQLite dedup ledger (`StateManager`);
* `src/monitoring/analyzer.py` — the keyword scoring engine (`ContentAnalyzer`);
* `src/utils/http_client.py` — the rate-limited retrying client;
* `src/main.py` — the `monitor_cycle` orchestrator;
* `src/notifications/slack_bot.py` — the built-in keyword disable/enable flow.

Modelling conventions: SQLAlchemy tables become Lean lists of structures
(`query(...).filter_by(post_id=...).first()` becomes `List.find?` on the list,
matching SQL row order); `datetime.now(timezone.utc)` becomes an explicit
`Time := Nat` argument; Python floats become `ℚ` (every score in the program is
a small dyadic value `k/2`, on which IEEE double arithmetic is exact);
fallible calls become `Except`/`Option` values.
-/

namespace DAOMonitor

abbrev Time := Nat

/-- Score values (Python `float`; exact dyadic rationals in this program). -/
abbrev Score := ℚ

/-- Update the first element satisfying `p` (SQLAlchemy mutates the single row
returned by `.first()`; the table keeps its order). -/
def updateFirst (p : α → Bool) (f : α → α) : List α → List α
  | [] => []
  | x :: xs => if p x then f x :: xs else x :: updateFirst p f xs

/-! ## Ledger rows (`state_manager.py` table classes) -/

/-- Row of `seen_posts` (`class SeenPost`). -/
structure SeenPost where
  post_id : String
  forum_name : String
  title : String
  url : String
  detection_score : Score
  first_seen_at : Time
  notified_at : Option Time
  keywords_matched : Option String
  deriving Repr, DecidableEq

/-- Row of `notification_log` (`class NotificationLog`); append-only. -/
structure NotificationLog where
  post_id : String
  forum_name : String
  sent_at : Time
  slack_response : Option String
  score : Score
  deriving Repr, DecidableEq

/-- Row of `keyword_configs` (`class KeywordConfig`). -/
structure KeywordConfig where
  id : Nat
  group : String
  keyword_text : String
  added_by : String
  added_at : Time
  active : Bool
  deriving Repr, DecidableEq

/-- Row of `forum_configs` (`class ForumUserConfig`). -/
structure ForumUserConfig where
  id : Nat
  name : String
  url : String
  forum_type : String
  enabled : Bool
  added_by : String
  added_at : Time
  deriving Repr, DecidableEq

/-- Modelled from the spec: row of the `disabled_items` table
(`DisabledItemRecord`, spec §3 and §6). The table and the `StateManager`
methods `disable_item` / `enable_item` / `list_disabled_items` are absent from
`src/monitoring/state_manager.py`; only their callers in
`src/notifications/slack_bot.py` exist. Spec: "(kind ∈ {keyword, source},
natural key, disabled_by, disabled_at) — existence means the built-in item is
inactive; absence means active. Unique per (kind, key)." -/
structure DisabledItem where
  kind : String
  item_key : String
  disabled_by : String
  disabled_at : Time
  deriving Repr, DecidableEq

/-- The durable database state owned by one `StateManager`. -/
structure DB where
  seen_posts : List SeenPost
  notification_log : List NotificationLog
  keyword_configs : List KeywordConfig
  forum_configs : List ForumUserConfig
  disabled_items : List DisabledItem
  deriving Repr, DecidableEq

/-- The freshly created database (`Base.metadata.create_all`). -/
def DB.init : DB := ⟨[], [], [], [], []⟩

/-- Embeds `session.query(SeenPost).filter_by(post_id=post_id).first()`. -/
def findSeen (db : DB) (post_id : String) : Option SeenPost :=
  db.seen_posts.find? (fun r => r.post_id == post_id)

/-- Embeds `notified_at` of the row `should_notify`/`mark_seen`/`mark_notified`
operate on, flattened (`none` when no row exists). -/
def notifiedAt (db : DB) (post_id : String) : Option Time :=
  (findSeen db post_id).bind (fun r => r.notified_at)

/-! ## `StateManager` operations -/

/-- Embeds `StateManager.should_notify(post_id, score)`: `True` when no row exists or
the row's `notified_at` is null; `False` once `notified_at` is set. The
`score` argument is accepted but never read by the body. -/
def shouldNotify (db : DB) (post_id : String) (_score : Score) : Bool :=
  match findSeen db post_id with
  | none => true
  | some existing => existing.notified_at.isNone

/-- Embeds `StateManager.mark_seen(post_id, forum_name, title, url, score)`: on an
existing row, `detection_score = max(score, existing.detection_score or 0)`;
otherwise insert a fresh row (`notified_at` null, `first_seen_at` defaulting
to now). `x or 0` is numerically the identity here since `detection_score`
is always populated (`0.0 or 0 == 0`). -/
def markSeen (db : DB) (post_id forum_name title url : String) (score : Score)
    (now : Time) : DB :=
  match findSeen db post_id with
  | some _ =>
    { db with
      seen_posts := updateFirst (fun r => r.post_id == post_id)
        (fun r => { r with detection_score := max score r.detection_score })
        db.seen_posts }
  | none =>
    { db with
      seen_posts := db.seen_posts ++
        [{ post_id := post_id, forum_name := forum_name, title := title,
           url := url, detection_score := score, first_seen_at := now,
           notified_at := none, keywords_matched := none }] }

/-- The `NotificationLog` row `mark_notified` appends (`sent_at` defaults to
now). -/
def notifLogRow (post_id forum_name : String) (score : Score)
    (slack_response : String) (now : Time) : NotificationLog :=
  { post_id := post_id, forum_name := forum_name, sent_at := now,
    slack_response := some slack_response, score := score }

/-- Embeds `StateManager.mark_notified(post_id, forum_name, title, url, score,
keywords, slack_response)`: update-or-create the `SeenPost` row with
`notified_at = now`, `detection_score = score`, `keywords_matched = keywords`,
and append one `NotificationLog` row; a single `session.commit()` covers
both writes. -/
def markNotified (db : DB) (post_id forum_name title url : String)
    (score : Score) (keywords slack_response : String) (now : Time) : DB :=
  let seen' :=
    match findSeen db post_id with
    | some _ =>
      updateFirst (fun r => r.post_id == post_id)
        (fun r => { r with notified_at := some now, detection_score := score,
                           keywords_matched := some keywords })
        db.seen_posts
    | none =>
      db.seen_posts ++
        [{ post_id := post_id, forum_name := forum_name, title := title,
           url := url, detection_score := score, first_seen_at := now,
           notified_at := some now, keywords_matched := some keywords }]
  { db with
    seen_posts := seen',
    notification_log := db.notification_log ++
      [notifLogRow post_id forum_name score slack_response now] }

/-- Embeds `StateManager.add_user_keyword(group, pattern, added_by)`. -/
def addUserKeyword (db : DB) (id : Nat) (group pattern added_by : String)
    (now : Time) : DB :=
  { db with keyword_configs := db.keyword_configs ++
      [{ id := id, group := group, keyword_text := pattern,
         added_by := added_by, added_at := now, active := true }] }

/-- Embeds `StateManager.remove_user_keyword(keyword_id)`: delete the row found by
id, if any. -/
def removeUserKeyword (db : DB) (keyword_id : Nat) : DB :=
  match db.keyword_configs.find? (fun k => k.id == keyword_id) with
  | none => db
  | some kw =>
    { db with keyword_configs := db.keyword_configs.erase kw }

/-- Embeds `StateManager.add_user_forum(name, url, forum_type, added_by)`. -/
def addUserForum (db : DB) (id : Nat) (name url forum_type added_by : String)
    (now : Time) : DB :=
  { db with forum_configs := db.forum_configs ++
      [{ id := id, name := name, url := url, forum_type := forum_type,
         enabled := true, added_by := added_by, added_at := now }] }

/-- Embeds `StateManager.remove_user_forum(forum_id)`. -/
def removeUserForum (db : DB) (forum_id : Nat) : DB :=
  match db.forum_configs.find? (fun f => f.id == forum_id) with
  | none => db
  | some f =>
    { db with forum_configs := db.forum_configs.erase f }

/-- Whether a `DisabledItemRecord` for (kind, key) exists — the existence the
spec's "idempotent toggles on DisabledItemRecord existence" refers to. -/
def hasDisabledItem (db : DB) (kind item_key : String) : Bool :=
  db.disabled_items.any (fun d => d.kind == kind && d.item_key == item_key)

/-- Modelled from the spec: `StateManager.disable_item(kind, key, by)`
(absent from `src/monitoring/state_manager.py`; called from
`src/notifications/slack_bot.py`). Spec §4.3: an idempotent toggle on
`DisabledItemRecord` existence, unique per (kind, key). -/
def disableItem (db : DB) (kind item_key disabled_by : String)
    (now : Time) : DB :=
  if hasDisabledItem db kind item_key
  then db
  else
    { db with disabled_items := db.disabled_items ++
        [{ kind := kind, item_key := item_key, disabled_by := disabled_by,
           disabled_at := now }] }

/-- Modelled from the spec: `StateManager.enable_item(kind, key)` (absent from
`src/monitoring/state_manager.py`). Spec §4.3: idempotent deletion of the
`DisabledItemRecord` for (kind, key). -/
def enableItem (db : DB) (kind item_key : String) : DB :=
  { db with
    disabled_items :=
      db.disabled_items.filter
        (fun d => !(d.kind == kind && d.item_key == item_key)) }

/-- Modelled from the spec: `StateManager.list_disabled_items(kind)`. -/
def listDisabledItems (db : DB) (kind : String) : List DisabledItem :=
  db.disabled_items.filter (fun d => d.kind == kind)

/-! ## The ledger as a state machine -/

/-- One mutating `StateManager` call (reads like `should_notify`,
`list_keywords`, `get_stats` do not change the database). `disableItem` /
`enableItem` are the spec-modelled operations above. -/
inductive Op where
  | markSeen (post_id forum_name title url : String) (score : Score) (now : Time)
  | markNotified (post_id forum_name title url : String) (score : Score)
      (keywords slack_response : String) (now : Time)
  | addUserKeyword (id : Nat) (group pattern added_by : String) (now : Time)
  | removeUserKeyword (keyword_id : Nat)
  | addUserForum (id : Nat) (name url forum_type added_by : String) (now : Time)
  | removeUserForum (forum_id : Nat)
  | disableItem (kind item_key disabled_by : String) (now : Time)
  | enableItem (kind item_key : String)
  deriving Repr, DecidableEq

def applyOp (db : DB) : Op → DB
  | .markSeen pid f t u s now => markSeen db pid f t u s now
  | .markNotified pid f t u s kw sr now => markNotified db pid f t u s kw sr now
  | .addUserKeyword i g p by_ now => addUserKeyword db i g p by_ now
  | .removeUserKeyword i => removeUserKeyword db i
  | .addUserForum i n u ft by_ now => addUserForum db i n u ft by_ now
  | .removeUserForum i => removeUserForum db i
  | .disableItem k key by_ now => disableItem db k key by_ now
  | .enableItem k key => enableItem db k key

/-- Run a sequence of operations from a given state. -/
def runOps (db : DB) (ops : List Op) : DB := ops.foldl applyOp db

/-- Whether an operation is a `mark_notified` for the given post id. -/
def Op.isMarkNotifiedFor (pid : String) : Op → Bool
  | .markNotified pid' _ _ _ _ _ _ _ => pid' == pid
  | _ => false

/-! ## `RateLimitedClient.get` (`src/utils/http_client.py`)

The `attempt`-th request of one `get` call yields `resps attempt`: either a
200 with a parsed body, a non-200 status (with an optional integer
`Retry-After` header), or a network/timeout error.  Sleeps performed between
attempts are collected in order; the pacing sleep of `_rate_limit` is not part
of the retry logic and is not modelled. -/

/-- Outcome of one HTTP request inside the retry loop. -/
inductive HResp where
  | ok (body : String)
  | http (status : Nat) (retryAfter : Option Int)
  | netErr
  deriving Repr, DecidableEq

/-- How one `get` call ends. -/
inductive GetOutcome where
  | success (body : String)
  /-- Embeds the `aiohttp.ClientResponseError` raised for a non-200/429/5xx
  status.  Because the raise sits inside the `try` and `ClientResponseError`
  subclasses `ClientError`, the broad `except` clause catches it, and it
  propagates only when re-raised on the last attempt. -/
  | clientError (status : Nat)
  /-- the underlying `ClientError`/`TimeoutError`, re-raised on the last attempt. -/
  | netError
  /-- Embeds the final `RuntimeError` reporting max retries exceeded. -/
  | maxRetries
  deriving Repr, DecidableEq

/-- The body of `for attempt in range(self.max_retries)`, with `remaining`
further iterations after this one (the pattern `remaining + 1` counts the
current attempt); returns the outcome and the list of backoff sleep durations
(seconds).  `429` sleeps `Retry-After` (default 60) and `continue`s;
`>= 500` sleeps `2**attempt * 5` and `continue`s; for any other non-200
status the code raises `aiohttp.ClientResponseError` inside the `try`, and
since `ClientResponseError` subclasses `ClientError` the
`except (aiohttp.ClientError, asyncio.TimeoutError)` clause catches it, so —
exactly as for a network error — it re-raises on the last attempt
(`attempt == max_retries - 1`, i.e. `remaining = 0`) and otherwise sleeps
`2**attempt * 5` and retries. -/
def getGo (resps : Nat → HResp) (attempt : Nat) : Nat → GetOutcome × List Int
  | 0 => (.maxRetries, [])
  | remaining + 1 =>
    match resps attempt with
    | .ok body => (.success body, [])
    | .http status retryAfter =>
      if status == 429 then
        let w := retryAfter.getD 60
        let r := getGo resps (attempt + 1) remaining
        (r.1, w :: r.2)
      else if status ≥ 500 then
        let w : Int := 2 ^ attempt * 5
        let r := getGo resps (attempt + 1) remaining
        (r.1, w :: r.2)
      else
        if remaining == 0 then (.clientError status, [])
        else
          let w : Int := 2 ^ attempt * 5
          let r := getGo resps (attempt + 1) remaining
          (r.1, w :: r.2)
    | .netErr =>
      if remaining == 0 then (.netError, [])
      else
        let w : Int := 2 ^ attempt * 5
        let r := getGo resps (attempt + 1) remaining
        (r.1, w :: r.2)

/-- Embeds `RateLimitedClient.get`: run the retry loop from attempt 0. -/
def rlGet (resps : Nat → HResp) (maxRetries : Nat) : GetOutcome × List Int :=
  getGo resps 0 maxRetries

/-! ## `ContentAnalyzer` (`src/monitoring/analyzer.py`) -/

/-- Embeds `models.ForumPost` (pydantic model; only plain data). -/
structure ForumPost where
  forum_name : String
  post_id : String
  topic_id : String
  title : String
  body : String
  author : String
  category : String
  url : String
  created_at : Time
  reply_count : Nat
  like_count : Nat
  deriving Repr, DecidableEq

/-- Embeds `models.KeywordMatch`. -/
structure KeywordMatch where
  group : String
  pattern : String
  location : String
  matched_text : String
  deriving Repr, DecidableEq

/-- A compiled regex (`re.Pattern`): its `.pattern` text and its `.search`
behaviour (`search text` returns `match.group()` of the leftmost match, or
`none`). -/
structure Pattern where
  pattern : String
  search : String → Option String

/-- Embeds `models.DetectionResult` (`matches` is a reserved word in Lean, hence the
quoted field name). -/
structure DetectionResult where
  post : ForumPost
  triggered : Bool
  score : Score
  «matches» : List KeywordMatch

def TITLE_WEIGHT : Score := 2
def BODY_WEIGHT : Score := 1
def CATEGORY_MULTIPLIER : Score := 3 / 2
def DEFAULT_THRESHOLD : Score := 3 / 2

/-- Models `str.lower()` (the categories involved are ASCII); written via
`List Char` so that it evaluates inside the kernel. -/
def strLower (s : String) : String := String.mk (s.toList.map Char.toLower)

def PRIORITY_CATEGORIES : List String :=
  ["governance", "security", "security council", "proposals", "voting",
   "constitution", "treasury"]

/-- Regex-compilation semantics: `re.compile(p, re.IGNORECASE)` either fails
(`re.error`, `none`) or yields a search function.  The analyzer is embedded
relative to such a semantics; concrete claims instantiate it with the literal
case-insensitive matcher below, which is exactly what `re.compile` produces
for a metacharacter-free pattern. -/
abbrev ReSem := String → Option (String → Option String)

/-- Embeds `ContentAnalyzer`: the trigger `threshold` and `self._compiled`, an
insertion-ordered dict from group name to compiled patterns.  (The mirror
list `self._raw_patterns` maintained by `add_keyword`/`remove_keyword` is
never read by `analyze` or `get_all_keywords` and is not modelled.) -/
structure Analyzer where
  threshold : Score
  compiled : List (String × List Pattern)

/-- Embeds `ContentAnalyzer.__init__`: compile each group's patterns, dropping (with
a warning) those that fail to compile. -/
def mkAnalyzer (sem : ReSem) (keywords : List (String × List String))
    (threshold : Score) : Analyzer :=
  { threshold := threshold,
    compiled := keywords.map (fun gp =>
      (gp.1, gp.2.filterMap (fun p => (sem p).map (fun f => Pattern.mk p f)))) }

/-- One iteration of the pattern loop in `analyze`: search the title (weight
2.0) and the body (weight 1.0) independently, appending a `KeywordMatch` per
location hit. -/
def analyzeStep (post : ForumPost) (acc : Score × List KeywordMatch)
    (gp : String × Pattern) : Score × List KeywordMatch :=
  let acc1 :=
    match gp.2.search post.title with
    | some m =>
      (acc.1 + TITLE_WEIGHT,
       acc.2 ++ [{ group := gp.1, pattern := gp.2.pattern, location := "title",
                   matched_text := m }])
    | none => acc
  match gp.2.search post.body with
  | some m =>
    (acc1.1 + BODY_WEIGHT,
     acc1.2 ++ [{ group := gp.1, pattern := gp.2.pattern, location := "body",
                  matched_text := m }])
  | none => acc1

/-- The double loop of `analyze` before the category bonus: every pattern of
every group, in iteration order. -/
def rawAnalyze (a : Analyzer) (post : ForumPost) : Score × List KeywordMatch :=
  (a.compiled.flatMap (fun gps => gps.2.map (fun p => (gps.1, p)))).foldl
    (analyzeStep post) (0, [])

/-- Embeds `ContentAnalyzer.analyze(post)`. -/
def analyze (a : Analyzer) (post : ForumPost) : DetectionResult :=
  let raw := rawAnalyze a post
  let score :=
    if PRIORITY_CATEGORIES.contains (strLower post.category)
    then raw.1 * CATEGORY_MULTIPLIER
    else raw.1
  { post := post, triggered := decide (a.threshold ≤ score), score := score,
    «matches» := raw.2 }

/-- Embeds `ContentAnalyzer.add_keyword(group, pattern)`: compile (raising
`ValueError`, i.e. `none`, on a bad pattern), then append to the group's
list, creating the group at the end of the dict if absent. -/
def addKeyword (sem : ReSem) (a : Analyzer) (group pattern : String) :
    Option Analyzer :=
  (sem pattern).map (fun f =>
    let cp : Pattern := ⟨pattern, f⟩
    if a.compiled.any (fun gp => gp.1 == group) then
      let compiled' :=
        updateFirst (fun gp => gp.1 == group)
          (fun gp => (gp.1, gp.2 ++ [cp])) a.compiled
      { a with compiled := compiled' }
    else
      { a with compiled := a.compiled ++ [(group, [cp])] })

/-- Embeds `ContentAnalyzer.remove_keyword(group, pattern)`: drop every compiled
pattern of that group whose text equals `pattern`; no-op if the group is
absent. -/
def removeKeyword (a : Analyzer) (group pattern : String) : Analyzer :=
  let compiled' :=
    updateFirst (fun gp => gp.1 == group)
      (fun gp => (gp.1, gp.2.filter (fun p => p.pattern != pattern)))
      a.compiled
  { a with compiled := compiled' }

/-- Embeds `ContentAnalyzer.get_all_keywords()`: the pattern texts, grouped. -/
def getAllKeywords (a : Analyzer) : List (String × List String) :=
  a.compiled.map (fun gp => (gp.1, gp.2.map (fun p => p.pattern)))

/-- Association-list lookup (dict access on `get_all_keywords()`). -/
def alookup (key : String) : List (String × α) → Option α
  | [] => none
  | kv :: rest => if kv.1 == key then some kv.2 else alookup key rest

/-! ### Literal case-insensitive matching

`re.compile(p, re.IGNORECASE).search(text)` for a metacharacter-free pattern
`p` is the leftmost case-insensitive occurrence of `p` in `text`, and
`match.group()` is the corresponding substring of the original text. -/

def lowerChars (cs : List Char) : List Char := cs.map Char.toLower

/-- Whether the first list occurs at the head of the second. -/
def leadsWith : List Char → List Char → Bool
  | [], _ => true
  | _ :: _, [] => false
  | p :: ps, c :: cs => p == c && leadsWith ps cs

/-- Leftmost case-insensitive occurrence of `pat` in the text, returning the
matched characters of the original text. -/
def ciSearchAux (pat : List Char) : List Char → Option (List Char)
  | [] => if pat.isEmpty then some [] else none
  | c :: rest =>
    if leadsWith (lowerChars pat) (lowerChars (c :: rest)) then
      some ((c :: rest).take pat.length)
    else ciSearchAux pat rest

def ciSearch (pat text : String) : Option String :=
  (ciSearchAux pat.toList text.toList).map (fun cs => String.mk cs)

/-- Compilation semantics for literal (metacharacter-free) patterns. -/
def litSem : ReSem := fun p => some (fun text => ciSearch p text)

/-! ## Built-in keyword disable/enable flow (`src/notifications/slack_bot.py`)

`handle_remove_submission`, `cfg:` branch: `item_key` is group + ":" + pattern;
`state.disable_item("keyword", item_key, disabled_by=user)` then
`analyzer.remove_keyword(group, pattern)`.
`handle_enable_keyword_submission`: `state.enable_item("keyword", item_key)`
then `analyzer.add_keyword(group, pattern)`. -/

def disableBuiltinKeyword (db : DB) (a : Analyzer) (group pattern user : String)
    (now : Time) : DB × Analyzer :=
  (disableItem db "keyword" (group ++ ":" ++ pattern) user now,
   removeKeyword a group pattern)

def enableBuiltinKeyword (sem : ReSem) (db : DB) (a : Analyzer)
    (group pattern : String) : Option (DB × Analyzer) :=
  (addKeyword sem a group pattern).map (fun a' =>
    (enableItem db "keyword" (group ++ ":" ++ pattern), a'))

/-! ## Session/commit model of `mark_notified` (for atomicity)

SQLAlchemy buffers the session's writes and makes them durable at
`session.commit()`.  `mark_notified` is re-expressed as the statement list its
body executes; a crash after `k` statements leaves the durable state produced
by the commits among the first `k` statements only. -/

inductive SessionWrite where
  /-- Embeds `existing.notified_at = now; existing.detection_score = score;
  existing.keywords_matched = keywords` on the row found for `post_id`. -/
  | updateSeenNotified (post_id : String) (now : Time) (score : Score)
      (keywords : String)
  | insertSeen (row : SeenPost)
  | insertLog (row : NotificationLog)
  deriving Repr, DecidableEq

def applyWrite (db : DB) : SessionWrite → DB
  | .updateSeenNotified pid now score kw =>
    let upd := fun (r : SeenPost) =>
      { r with notified_at := some now, detection_score := score,
               keywords_matched := some kw }
    let seen' := updateFirst (fun r => r.post_id == pid) upd db.seen_posts
    { db with seen_posts := seen' }
  | .insertSeen row => { db with seen_posts := db.seen_posts ++ [row] }
  | .insertLog row =>
    { db with notification_log := db.notification_log ++ [row] }

inductive Stmt where
  | write (w : SessionWrite)
  | commit
  deriving Repr, DecidableEq

/-- The statements the body of `mark_notified` executes against the session:
update-or-insert the `SeenPost` row, add the `NotificationLog` row, then one
`session.commit()`. -/
def markNotifiedProg (db : DB) (post_id forum_name title url : String)
    (score : Score) (keywords slack_response : String) (now : Time) :
    List Stmt :=
  (match findSeen db post_id with
   | some _ =>
     [Stmt.write (.updateSeenNotified post_id now score keywords)]
   | none =>
     [Stmt.write (.insertSeen
       { post_id := post_id, forum_name := forum_name, title := title,
         url := url, detection_score := score, first_seen_at := now,
         notified_at := some now, keywords_matched := some keywords })])
  ++ [Stmt.write (.insertLog (notifLogRow post_id forum_name score
        slack_response now)),
      Stmt.commit]

/-- Execute statements: writes accumulate in the session's pending list and
become durable only at a commit. -/
def execStmts (durable : DB) (pending : List SessionWrite) :
    List Stmt → DB
  | [] => durable
  | .write w :: rest => execStmts durable (pending ++ [w]) rest
  | .commit :: rest => execStmts (pending.foldl applyWrite durable) [] rest

/-- Durable state visible if the process stops after the first `k`
statements (uncommitted pending writes are lost). -/
def durableAfter (db : DB) (prog : List Stmt) (k : Nat) : DB :=
  execStmts db [] (prog.take k)

def Stmt.isCommit : Stmt → Bool
  | .commit => true
  | _ => false

/-! ## `monitor_cycle` (`src/main.py`)

The cycle is embedded against an environment fixing, for each forum, the
outcome of `fetch_latest_posts` and, per post, the outcome of
`fetch_topic_details` (raised inside the forum-level `try`, outside the
per-post one) and of `slack.send_alert` (inside the per-post `try`). -/

instance [DecidableEq ε] [DecidableEq α] : DecidableEq (Except ε α) := fun a b =>
  match a, b with
  | .ok x, .ok y =>
    if h : x = y then .isTrue (by rw [h]) else .isFalse (by simp [h])
  | .error x, .error y =>
    if h : x = y then .isTrue (by rw [h]) else .isFalse (by simp [h])
  | .ok _, .error _ => .isFalse (by simp)
  | .error _, .ok _ => .isFalse (by simp)

structure PostEnv where
  post : ForumPost
  /-- Embeds `forum.fetch_topic_details(post.topic_id)` outcome, when consulted. -/
  detail : Except String (Option ForumPost)
  /-- Embeds `slack.send_alert(result)` outcome: delivery receipt or exception. -/
  deliver : Except String String
  deriving Repr, DecidableEq

structure ForumEnv where
  name : String
  /-- Embeds `forum.fetch_latest_posts(since_minutes=30)` outcome. -/
  fetch : Except String (List PostEnv)
  deriving Repr, DecidableEq

/-- Accumulated cycle effects: the ledger, the posts for which
`mark_notified` ran, and the `(forum, message)` error alerts attempted via
`slack.send_error` (itself wrapped in `try/except: pass`, so an attempt is
recorded whether or not it lands). -/
structure CycleState where
  db : DB
  alertsSent : List String
  errorAlerts : List (String × String)
  deriving Repr, DecidableEq

/-- Embeds `json.dumps([m.matched_text for m in result.matches])`, modelled as a
plain JSON array rendering (escaping is not modelled; no claim depends on
the encoding). -/
def keywordsJson (ms : List KeywordMatch) : String :=
  "[" ++ String.intercalate ", "
    (ms.map (fun m => "\"" ++ m.matched_text ++ "\"")) ++ "]"

/-- Embeds `if fetch_details and not post.body:` fetch the full post, replacing
`post` when a detailed version comes back; a raised exception propagates to
the forum-level handler. -/
def effectivePost (fetchDetails : Bool) (pe : PostEnv) :
    Except String ForumPost :=
  if fetchDetails && pe.post.body == "" then
    match pe.detail with
    | .error e => .error e
    | .ok (some detailed) => .ok detailed
    | .ok none => .ok pe.post
  else .ok pe.post

/-- The `for post in posts:` loop of `monitor_cycle`.  Returns the state and,
when `fetch_topic_details` raised, the message of the exception that aborts
this forum (propagating to the forum-level handler). -/
def processPosts (a : Analyzer) (fetchDetails : Bool) (now : Time)
    (st : CycleState) : List PostEnv → CycleState × Option String
  | [] => (st, none)
  | pe :: rest =>
    match effectivePost fetchDetails pe with
    | .error e => (st, some e)
    | .ok post =>
      let result := analyze a post
      if !result.triggered then
        let db' := markSeen st.db post.post_id post.forum_name post.title
          post.url result.score now
        processPosts a fetchDetails now { st with db := db' } rest
      else if !shouldNotify st.db post.post_id result.score then
        processPosts a fetchDetails now st rest
      else
        match pe.deliver with
        | .error _ =>
          -- `except Exception`: logged as slack_send_error; loop continues,
          -- `mark_notified` never runs for this post.
          processPosts a fetchDetails now st rest
        | .ok receipt =>
          let db' := markNotified st.db post.post_id post.forum_name post.title
            post.url result.score (keywordsJson result.«matches») receipt now
          processPosts a fetchDetails now
            { st with db := db', alertsSent := st.alertsSent ++ [post.post_id] }
            rest

/-- The per-forum body with its `try/except`: a fetch failure or a
detail-fetch failure is caught, an error alert is attempted, and the cycle
moves on to the next forum. -/
def processForum (a : Analyzer) (fetchDetails : Bool) (now : Time)
    (st : CycleState) (f : ForumEnv) : CycleState :=
  match f.fetch with
  | .error e => { st with errorAlerts := st.errorAlerts ++ [(f.name, e)] }
  | .ok posts =>
    match processPosts a fetchDetails now st posts with
    | (st', none) => st'
    | (st', some e) =>
      { st' with errorAlerts := st'.errorAlerts ++ [(f.name, e)] }

/-- Embeds `monitor_cycle(forums, analyzer, state, slack, fetch_details)`. -/
def monitorCycle (a : Analyzer) (fetchDetails : Bool) (now : Time) (db : DB)
    (forums : List ForumEnv) : CycleState :=
  forums.foldl (processForum a fetchDetails now) ⟨db, [], []⟩

/-- Whether the delivery of this post's alert raises. -/
def deliveryFails (pe : PostEnv) : Bool :=
  match pe.deliver with
  | .error _ => true
  | .ok _ => false

/-- A forum environment in which nothing can be delivered: either the fetch
itself fails, or the alert delivery of every fetched post fails. -/
def forumAllFail (f : ForumEnv) : Bool :=
  match f.fetch with
  | .error _ => true
  | .ok posts => posts.all deliveryFails

/-! ## Concrete instances used by the scoring-engine claims -/

/-- Analyzer with keyword groups as in spec §8: group "governance" holding the
single literal pattern "treasury", threshold 1.5. -/
def c6Analyzer : Analyzer :=
  mkAnalyzer litSem [("governance", ["treasury"])] (3 / 2)

/-- Post with a title match and a priority category. -/
def c6PostGov : ForumPost :=
  { forum_name := "arbitrum", post_id := "arbitrum_101", topic_id := "101",
    title := "Treasury proposal", body := "", author := "alice",
    category := "Governance", url := "https://example.org/t/101",
    created_at := 0, reply_count := 0, like_count := 0 }

/-- The same post in a non-priority category. -/
def c6PostOff : ForumPost := { c6PostGov with category := "Off-topic" }

/-- Post matching only in the body, in a non-priority category. -/
def c6PostBody : ForumPost :=
  { c6PostGov with
    title := "Budget update"
    body := "the treasury is low"
    category := "Off-topic" }

/-! ## List helper lemmas -/

theorem find?_updateFirst_same {α : Type} (p : α → Bool) (g : α → α)
    (hg : ∀ x, p (g x) = p x) (xs : List α) :
    (updateFirst p g xs).find? p = (xs.find? p).map g := by
  induction xs with
  | nil => rfl
  | cons x xs ih =>
    by_cases hx : p x = true
    · rw [updateFirst, if_pos hx, List.find?_cons_of_pos _ ((hg x).trans hx),
        List.find?_cons_of_pos _ hx]
      rfl
    · rw [updateFirst, if_neg hx, List.find?_cons_of_neg _ hx,
        List.find?_cons_of_neg _ hx, ih]

theorem find?_updateFirst_other {α : Type} (p q : α → Bool) (g : α → α)
    (h1 : ∀ x, p x = true → q x = false)
    (h2 : ∀ x, p x = true → q (g x) = false) (xs : List α) :
    (updateFirst p g xs).find? q = xs.find? q := by
  induction xs with
  | nil => rfl
  | cons x xs ih =>
    by_cases hx : p x = true
    · rw [updateFirst, if_pos hx,
        List.find?_cons_of_neg _ (by simp [h2 x hx]),
        List.find?_cons_of_neg _ (by simp [h1 x hx])]
    · rw [updateFirst, if_neg hx]
      by_cases hq : q x = true
      · rw [List.find?_cons_of_pos _ hq, List.find?_cons_of_pos _ hq]
      · rw [List.find?_cons_of_neg _ hq, List.find?_cons_of_neg _ hq, ih]

theorem updateFirst_eq_self {α : Type} (p : α → Bool) (g : α → α)
    (h : ∀ x, p x = true → g x = x) (xs : List α) :
    updateFirst p g xs = xs := by
  induction xs with
  | nil => rfl
  | cons x xs ih =>
    by_cases hx : p x = true
    · rw [updateFirst, if_pos hx, h x hx]
    · rw [updateFirst, if_neg hx, ih]

/-! ## Ledger lemmas -/

theorem findSeen_markSeen_of_some {db : DB} {pid : String} {r : SeenPost}
    (h : findSeen db pid = some r) (f t u : String) (s : Score) (now : Time) :
    findSeen (markSeen db pid f t u s now) pid =
      some { r with detection_score := max s r.detection_score } := by
  simp only [markSeen, h]
  simp only [findSeen] at h ⊢
  rw [find?_updateFirst_same (fun r => r.post_id == pid)
      (fun r => { r with detection_score := max s r.detection_score })
      (fun x => rfl) db.seen_posts, h]
  rfl

theorem findSeen_markSeen_of_none {db : DB} {pid : String}
    (h : findSeen db pid = none) (f t u : String) (s : Score) (now : Time) :
    findSeen (markSeen db pid f t u s now) pid =
      some { post_id := pid, forum_name := f, title := t, url := u,
             detection_score := s, first_seen_at := now, notified_at := none,
             keywords_matched := none } := by
  simp only [markSeen, h]
  simp only [findSeen] at h ⊢
  rw [List.find?_append, h]
  simp [List.find?]

theorem findSeen_markSeen_ne {pid pid' : String} (hne : pid ≠ pid') (db : DB)
    (f t u : String) (s : Score) (now : Time) :
    findSeen (markSeen db pid' f t u s now) pid = findSeen db pid := by
  have hq : ∀ x : SeenPost, (x.post_id == pid') = true →
      (x.post_id == pid) = false := by
    intro x hx
    rw [eq_of_beq hx]
    exact beq_eq_false_iff_ne.mpr (Ne.symm hne)
  cases h : findSeen db pid' with
  | some r =>
    simp only [markSeen, h]
    simp only [findSeen]
    exact find?_updateFirst_other (fun r => r.post_id == pid')
      (fun r => r.post_id == pid)
      (fun r => { r with detection_score := max s r.detection_score })
      hq (fun x hx => hq x hx) db.seen_posts
  | none =>
    simp only [markSeen, h]
    simp only [findSeen]
    rw [List.find?_append]
    have hb : (pid' == pid) = false := beq_eq_false_iff_ne.mpr (Ne.symm hne)
    have hrow : List.find? (fun r => r.post_id == pid)
        [({ post_id := pid', forum_name := f, title := t, url := u,
            detection_score := s, first_seen_at := now, notified_at := none,
            keywords_matched := none } : SeenPost)] = none := by
      simp [List.find?, hb]
    rw [hrow, Option.or_none]

theorem findSeen_markNotified_of_some {db : DB} {pid : String} {r : SeenPost}
    (h : findSeen db pid = some r) (f t u : String) (s : Score)
    (kw sr : String) (now : Time) :
    findSeen (markNotified db pid f t u s kw sr now) pid =
      some { r with notified_at := some now, detection_score := s,
                    keywords_matched := some kw } := by
  simp only [markNotified, h]
  simp only [findSeen] at h ⊢
  rw [find?_updateFirst_same (fun r => r.post_id == pid)
      (fun r => { r with notified_at := some now, detection_score := s,
                         keywords_matched := some kw })
      (fun x => rfl) db.seen_posts, h]
  rfl

theorem findSeen_markNotified_of_none {db : DB} {pid : String}
    (h : findSeen db pid = none) (f t u : String) (s : Score)
    (kw sr : String) (now : Time) :
    findSeen (markNotified db pid f t u s kw sr now) pid =
      some { post_id := pid, forum_name := f, title := t, url := u,
             detection_score := s, first_seen_at := now,
             notified_at := some now, keywords_matched := some kw } := by
  simp only [markNotified, h]
  simp only [findSeen] at h ⊢
  rw [List.find?_append, h]
  simp [List.find?]

theorem findSeen_markNotified_ne {pid pid' : String} (hne : pid ≠ pid')
    (db : DB) (f t u : String) (s : Score) (kw sr : String) (now : Time) :
    findSeen (markNotified db pid' f t u s kw sr now) pid =
      findSeen db pid := by
  have hq : ∀ x : SeenPost, (x.post_id == pid') = true →
      (x.post_id == pid) = false := by
    intro x hx
    rw [eq_of_beq hx]
    exact beq_eq_false_iff_ne.mpr (Ne.symm hne)
  cases h : findSeen db pid' with
  | some r =>
    simp only [markNotified, h]
    simp only [findSeen]
    exact find?_updateFirst_other (fun r => r.post_id == pid')
      (fun r => r.post_id == pid)
      (fun r => { r with notified_at := some now, detection_score := s,
                         keywords_matched := some kw })
      hq (fun x hx => hq x hx) db.seen_posts
  | none =>
    simp only [markNotified, h]
    simp only [findSeen]
    rw [List.find?_append]
    have hb : (pid' == pid) = false := beq_eq_false_iff_ne.mpr (Ne.symm hne)
    have hrow : List.find? (fun r => r.post_id == pid)
        [({ post_id := pid', forum_name := f, title := t, url := u,
            detection_score := s, first_seen_at := now,
            notified_at := some now,
            keywords_matched := some kw } : SeenPost)] = none := by
      simp [List.find?, hb]
    rw [hrow, Option.or_none]

theorem notifiedAt_markSeen (db : DB) (pid' f t u : String) (s : Score)
    (now : Time) (pid : String) :
    notifiedAt (markSeen db pid' f t u s now) pid = notifiedAt db pid := by
  by_cases hp : pid = pid'
  · subst hp
    cases h : findSeen db pid with
    | some r => rw [notifiedAt, findSeen_markSeen_of_some h, notifiedAt, h]; rfl
    | none => rw [notifiedAt, findSeen_markSeen_of_none h, notifiedAt, h]; rfl
  · rw [notifiedAt, findSeen_markSeen_ne hp, notifiedAt]

theorem notifiedAt_markNotified_self (db : DB) (pid f t u : String)
    (s : Score) (kw sr : String) (now : Time) :
    notifiedAt (markNotified db pid f t u s kw sr now) pid = some now := by
  cases h : findSeen db pid with
  | some r => rw [notifiedAt, findSeen_markNotified_of_some h]; rfl
  | none => rw [notifiedAt, findSeen_markNotified_of_none h]; rfl

theorem notifiedAt_markNotified_ne {pid pid' : String} (hne : pid ≠ pid')
    (db : DB) (f t u : String) (s : Score) (kw sr : String) (now : Time) :
    notifiedAt (markNotified db pid' f t u s kw sr now) pid =
      notifiedAt db pid := by
  rw [notifiedAt, findSeen_markNotified_ne hne, notifiedAt]

theorem notifiedAt_applyOp_of_not (db : DB) (op : Op) (pid : String)
    (h : op.isMarkNotifiedFor pid = false) :
    notifiedAt (applyOp db op) pid = notifiedAt db pid := by
  cases op with
  | markSeen pid' f t u s now => exact notifiedAt_markSeen db pid' f t u s now pid
  | markNotified pid' f t u s kw sr now =>
    have hne : pid ≠ pid' := by
      simp only [Op.isMarkNotifiedFor] at h
      exact fun he => absurd h (by simp [he])
    exact notifiedAt_markNotified_ne hne db f t u s kw sr now
  | addUserKeyword i g p b now => rfl
  | removeUserKeyword i =>
    show notifiedAt (removeUserKeyword db i) pid = notifiedAt db pid
    rw [removeUserKeyword]
    cases db.keyword_configs.find? (fun k => k.id == i) <;> rfl
  | addUserForum i n u ft b now => rfl
  | removeUserForum i =>
    show notifiedAt (removeUserForum db i) pid = notifiedAt db pid
    rw [removeUserForum]
    cases db.forum_configs.find? (fun f => f.id == i) <;> rfl
  | disableItem k key b now =>
    show notifiedAt (disableItem db k key b now) pid = notifiedAt db pid
    rw [disableItem]
    split <;> rfl
  | enableItem k key => rfl

theorem notified_isSome_applyOp (db : DB) (op : Op) (pid : String) :
    (notifiedAt (applyOp db op) pid).isSome
      = ((notifiedAt db pid).isSome || op.isMarkNotifiedFor pid) := by
  cases hm : op.isMarkNotifiedFor pid
  · rw [notifiedAt_applyOp_of_not db op pid hm, Bool.or_false]
  · cases op with
    | markNotified pid' f t u s kw sr now =>
      have he : pid' = pid := by
        simp only [Op.isMarkNotifiedFor] at hm
        exact eq_of_beq hm
      subst he
      show (notifiedAt (markNotified db pid' f t u s kw sr now) pid').isSome = _
      rw [notifiedAt_markNotified_self]
      simp
    | markSeen pid' f t u s now => simp [Op.isMarkNotifiedFor] at hm
    | addUserKeyword i g p b now => simp [Op.isMarkNotifiedFor] at hm
    | removeUserKeyword i => simp [Op.isMarkNotifiedFor] at hm
    | addUserForum i n u ft b now => simp [Op.isMarkNotifiedFor] at hm
    | removeUserForum i => simp [Op.isMarkNotifiedFor] at hm
    | disableItem k key b now => simp [Op.isMarkNotifiedFor] at hm
    | enableItem k key => simp [Op.isMarkNotifiedFor] at hm

theorem notified_isSome_runOps (ops : List Op) : ∀ (db : DB) (pid : String),
    (notifiedAt (runOps db ops) pid).isSome
      = ((notifiedAt db pid).isSome || ops.any (Op.isMarkNotifiedFor pid)) := by
  induction ops with
  | nil => intro db pid; simp [runOps]
  | cons op ops ih =>
    intro db pid
    show (notifiedAt (runOps (applyOp db op) ops) pid).isSome = _
    rw [ih, notified_isSome_applyOp]
    simp [Bool.or_assoc]

theorem shouldNotify_eq_not_isSome (db : DB) (pid : String) (s : Score) :
    shouldNotify db pid s = !(notifiedAt db pid).isSome := by
  unfold shouldNotify notifiedAt
  cases findSeen db pid with
  | none => rfl
  | some r => cases hn : r.notified_at <;> simp [hn]

/-! ## Claim theorems -/

/-- C1: for every post id and every sequence of ledger operations run from a
fresh database, `should_notify(post_id, score)` is `False` — for every score —
exactly when the sequence contains a `mark_notified` for that post id, and
`True` before any such call (row absent, or present with `notified_at` null);
once a `mark_notified` occurs, every later state keeps returning `False`. -/
theorem should_notify_latch (ops : List Op) (pid : String) (s : Score) :
    shouldNotify (runOps DB.init ops) pid s
      = !(ops.any (Op.isMarkNotifiedFor pid)) := by
  rw [shouldNotify_eq_not_isSome, notified_isSome_runOps]
  rfl

/-- C10: `should_notify` is score-oblivious — for every ledger state and post
id its result at any two scores coincides, the `notified_at`-based decision
ignoring the score despite the docstring's mention of a threshold. -/
theorem should_notify_score_independent (db : DB) (pid : String)
    (s₁ s₂ : Score) : shouldNotify db pid s₁ = shouldNotify db pid s₂ := rfl

/-! ## Further ledger lemmas (branch unfoldings, idempotence, folds) -/

theorem markSeen_of_some {db : DB} {pid : String} {r : SeenPost}
    (h : findSeen db pid = some r) (f t u : String) (s : Score) (now : Time) :
    markSeen db pid f t u s now =
      { db with
        seen_posts := updateFirst (fun x => x.post_id == pid)
          (fun x => { x with detection_score := max s x.detection_score })
          db.seen_posts } := by
  simp only [markSeen, h]

theorem markSeen_of_none {db : DB} {pid : String}
    (h : findSeen db pid = none) (f t u : String) (s : Score) (now : Time) :
    markSeen db pid f t u s now =
      { db with
        seen_posts := db.seen_posts ++
          [{ post_id := pid, forum_name := f, title := t, url := u,
             detection_score := s, first_seen_at := now, notified_at := none,
             keywords_matched := none }] } := by
  simp only [markSeen, h]

theorem markNotified_of_some {db : DB} {pid : String} {r : SeenPost}
    (h : findSeen db pid = some r) (f t u : String) (s : Score)
    (kw sr : String) (now : Time) :
    markNotified db pid f t u s kw sr now =
      { db with
        seen_posts := updateFirst (fun x => x.post_id == pid)
          (fun x => { x with notified_at := some now, detection_score := s,
                             keywords_matched := some kw })
          db.seen_posts,
        notification_log := db.notification_log ++
          [notifLogRow pid f s sr now] } := by
  simp only [markNotified, h]

theorem markNotified_of_none {db : DB} {pid : String}
    (h : findSeen db pid = none) (f t u : String) (s : Score)
    (kw sr : String) (now : Time) :
    markNotified db pid f t u s kw sr now =
      { db with
        seen_posts := db.seen_posts ++
          [{ post_id := pid, forum_name := f, title := t, url := u,
             detection_score := s, first_seen_at := now,
             notified_at := some now, keywords_matched := some kw }],
        notification_log := db.notification_log ++
          [notifLogRow pid f s sr now] } := by
  simp only [markNotified, h]

theorem updateFirst_idem {α : Type} (p : α → Bool) (g : α → α)
    (hp : ∀ x, p (g x) = p x) (hg : ∀ x, p x = true → g (g x) = g x)
    (xs : List α) : updateFirst p g (updateFirst p g xs) = updateFirst p g xs := by
  induction xs with
  | nil => rfl
  | cons x xs ih =>
    by_cases hx : p x = true
    · rw [updateFirst, if_pos hx, updateFirst, if_pos ((hp x).trans hx),
        hg x hx]
    · rw [updateFirst, if_neg hx, updateFirst, if_neg hx, ih]

theorem updateFirst_append_of_none {α : Type} (p : α → Bool) (g : α → α)
    {xs : List α} (h : xs.find? p = none) (ys : List α) :
    updateFirst p g (xs ++ ys) = xs ++ updateFirst p g ys := by
  induction xs with
  | nil => rfl
  | cons x xs ih =>
    have hx : ¬ p x = true := by
      intro hx
      exact absurd (List.find?_eq_none.mp h x (List.mem_cons_self x xs)) (by simp [hx])
    have htail : xs.find? p = none := by
      rw [List.find?_eq_none]
      intro y hy
      exact List.find?_eq_none.mp h y (List.mem_cons_of_mem x hy)
    rw [List.cons_append, updateFirst, if_neg hx, ih htail, List.cons_append]

/-- Folding `mark_seen` over a list of scores, starting from a state holding a
row: the stored score is the running maximum. -/
theorem findSeen_foldl_markSeen (pid f t u : String) (now : Time) :
    ∀ (ss : List Score) (db : DB) (r : SeenPost), findSeen db pid = some r →
      findSeen (ss.foldl (fun d σ => markSeen d pid f t u σ now) db) pid
        = some { r with detection_score := ss.foldl max r.detection_score } := by
  intro ss
  induction ss with
  | nil => intro db r h; simpa using h
  | cons σ ss ih =>
    intro db r h
    rw [List.foldl_cons,
      ih (markSeen db pid f t u σ now) _ (findSeen_markSeen_of_some h f t u σ now)]
    rw [List.foldl_cons, max_comm σ r.detection_score]

theorem markSeen_idem (db : DB) (pid f t u : String) (s : Score) (now : Time) :
    markSeen (markSeen db pid f t u s now) pid f t u s now
      = markSeen db pid f t u s now := by
  cases h : findSeen db pid with
  | some r =>
    rw [markSeen_of_some (findSeen_markSeen_of_some h f t u s now) f t u s now,
      markSeen_of_some h f t u s now]
    have hidem := updateFirst_idem (fun x : SeenPost => x.post_id == pid)
      (fun x => { x with detection_score := max s x.detection_score })
      (fun x => rfl)
      (fun x hx => by
        have hm : max s (max s x.detection_score) = max s x.detection_score := by
          rw [← max_assoc, max_self]
        simp [hm])
      db.seen_posts
    simp only [hidem]
  | none =>
    rw [markSeen_of_some (findSeen_markSeen_of_none h f t u s now) f t u s now,
      markSeen_of_none h f t u s now]
    have hupd : updateFirst (fun x : SeenPost => x.post_id == pid)
        (fun x => { x with detection_score := max s x.detection_score })
        (db.seen_posts ++
          [{ post_id := pid, forum_name := f, title := t, url := u,
             detection_score := s, first_seen_at := now, notified_at := none,
             keywords_matched := none }])
        = db.seen_posts ++
          [{ post_id := pid, forum_name := f, title := t, url := u,
             detection_score := s, first_seen_at := now, notified_at := none,
             keywords_matched := none }] := by
      rw [updateFirst_append_of_none _ _ (by simpa [findSeen] using h)]
      rw [updateFirst, if_pos (by simp)]
      simp [updateFirst, max_self]
    simp only [hupd]

/-! ## C5: mutability of `notified_at` -/

/-- C5 counterexample: the claim "once `notified_at` holds a non-null
timestamp, no subsequent operation — including a repeated `mark_notified` —
changes its value" is false: a second `mark_notified` for the same post at a
later time overwrites the stored timestamp (10 becomes 20). -/
theorem markNotified_overwrites_notified_at :
    notifiedAt (markNotified DB.init "p1" "f" "t" "u" 1 "" "" 10) "p1"
        = some 10
    ∧ notifiedAt (markNotified
        (markNotified DB.init "p1" "f" "t" "u" 1 "" "" 10)
        "p1" "f" "t" "u" 1 "" "" 20) "p1" = some 20 := by
  constructor
  · rfl
  · rfl

/-- C5 (amended): `notified_at` never returns to null and is left unchanged
by every operation that is not a `mark_notified` for that post id; a
`mark_notified` always stores the current timestamp, so a repeated call
overwrites the previous value instead of leaving it immutable. -/
theorem notified_at_transition_policy :
    (∀ (db : DB) (op : Op) (pid : String), op.isMarkNotifiedFor pid = false →
      notifiedAt (applyOp db op) pid = notifiedAt db pid)
    ∧ (∀ (db : DB) (pid f t u : String) (s : Score) (kw sr : String)
        (now : Time),
        notifiedAt (markNotified db pid f t u s kw sr now) pid = some now)
    ∧ (∀ (db : DB) (pid : String) (t₀ : Time), notifiedAt db pid = some t₀ →
        ∀ ops : List Op, (notifiedAt (runOps db ops) pid).isSome = true) := by
  refine ⟨notifiedAt_applyOp_of_not, notifiedAt_markNotified_self, ?_⟩
  intro db pid t₀ h ops
  rw [notified_isSome_runOps, h]
  rfl

/-- C5 witness: the amended policy evaluated at concrete inputs. -/
theorem notified_at_transition_policy_witness :
    notifiedAt (applyOp (markNotified DB.init "p1" "f" "t" "u" 1 "" "" 10)
        (Op.markSeen "p2" "f" "t" "u" 2 11)) "p1"
      = notifiedAt (markNotified DB.init "p1" "f" "t" "u" 1 "" "" 10) "p1"
    ∧ notifiedAt (markNotified DB.init "p1" "f" "t" "u" 1 "" "" 10) "p1"
        = some 10
    ∧ (notifiedAt (runOps (markNotified DB.init "p1" "f" "t" "u" 1 "" "" 10)
        [Op.markSeen "p1" "f" "t" "u" 5 12]) "p1").isSome = true :=
  ⟨notified_at_transition_policy.1 _ (Op.markSeen "p2" "f" "t" "u" 2 11) "p1"
      (by decide),
   notified_at_transition_policy.2.1 DB.init "p1" "f" "t" "u" 1 "" "" 10,
   notified_at_transition_policy.2.2 _ "p1" 10 (by decide)
      [Op.markSeen "p1" "f" "t" "u" 5 12]⟩

/-! ## C7: `mark_seen` idempotence and monotonicity -/

/-- C7: `mark_seen` is an idempotent, score-monotonic upsert: repeating a call
with the same arguments changes nothing; starting from a state with no row
for the post, a sequence of `mark_seen` calls leaves `detection_score` equal
to the running maximum of the scores passed (concretely, scores 1.0, 3.0, 2.0
from a fresh database leave 3.0); and no `mark_seen` call ever changes
`notified_at` for any post. -/
theorem mark_seen_idempotent_monotonic :
    (∀ (db : DB) (pid f t u : String) (s : Score) (now : Time),
      markSeen (markSeen db pid f t u s now) pid f t u s now
        = markSeen db pid f t u s now)
    ∧ (∀ (db : DB) (pid f t u : String) (now : Time) (s : Score)
        (ss : List Score), findSeen db pid = none →
        (findSeen ((s :: ss).foldl (fun d σ => markSeen d pid f t u σ now) db)
            pid).map (fun r => r.detection_score)
          = some (ss.foldl max s))
    ∧ ((findSeen (([1, 3, 2] : List Score).foldl
          (fun d σ => markSeen d "p1" "f" "t" "u" σ 0) DB.init) "p1").map
          (fun r => r.detection_score) = some 3)
    ∧ (∀ (db : DB) (pid' f t u : String) (s : Score) (now : Time)
        (pid : String),
        notifiedAt (markSeen db pid' f t u s now) pid = notifiedAt db pid) := by
  refine ⟨markSeen_idem, ?_, by decide, notifiedAt_markSeen⟩
  intro db pid f t u now s ss h
  rw [List.foldl_cons,
    findSeen_foldl_markSeen pid f t u now ss _ _
      (findSeen_markSeen_of_none h f t u s now)]
  rfl

/-- C7 witness: the idempotence and fold conjuncts evaluated concretely. -/
theorem mark_seen_idempotent_monotonic_witness :
    markSeen (markSeen DB.init "p1" "f" "t" "u" 2 0) "p1" "f" "t" "u" 2 0
      = markSeen DB.init "p1" "f" "t" "u" 2 0
    ∧ (findSeen ((((1 : Score) :: [3, 2]).foldl
        (fun d σ => markSeen d "p1" "f" "t" "u" σ 0) DB.init)) "p1").map
        (fun r => r.detection_score) = some ([(3 : Score), 2].foldl max 1) :=
  ⟨mark_seen_idempotent_monotonic.1 DB.init "p1" "f" "t" "u" 2 0,
   mark_seen_idempotent_monotonic.2.1 DB.init "p1" "f" "t" "u" 0 1 [3, 2]
     (by decide)⟩

/-! ## C2: atomicity of `mark_notified` -/

/-- C2: the body of `mark_notified` issues its `SeenPost` upsert and its
single `NotificationLog` insert inside one transaction: the statement list it
executes contains exactly one commit, placed last, so a crash or failure at
any earlier point leaves the database untouched, while running the whole body
yields exactly `mark_notified`'s result, in which the row carries
`notified_at = now`, `detection_score = score`, `keywords_matched = keywords`
and exactly one new log row has been appended. -/
theorem mark_notified_single_transaction (db : DB) (pid f t u : String)
    (s : Score) (kw sr : String) (now : Time) :
    (markNotifiedProg db pid f t u s kw sr now).countP Stmt.isCommit = 1
    ∧ (markNotifiedProg db pid f t u s kw sr now).getLast? = some Stmt.commit
    ∧ (∀ k, k < (markNotifiedProg db pid f t u s kw sr now).length →
        durableAfter db (markNotifiedProg db pid f t u s kw sr now) k = db)
    ∧ durableAfter db (markNotifiedProg db pid f t u s kw sr now)
        (markNotifiedProg db pid f t u s kw sr now).length
        = markNotified db pid f t u s kw sr now
    ∧ (∃ r, findSeen (markNotified db pid f t u s kw sr now) pid = some r
        ∧ r.notified_at = some now ∧ r.detection_score = s
        ∧ r.keywords_matched = some kw)
    ∧ (markNotified db pid f t u s kw sr now).notification_log
        = db.notification_log ++ [notifLogRow pid f s sr now] := by
  cases h : findSeen db pid with
  | some r =>
    refine ⟨?_, ?_, ?_, ?_, ?_, ?_⟩
    · simp only [markNotifiedProg, h]; rfl
    · simp only [markNotifiedProg, h]; rfl
    · simp only [markNotifiedProg, h]
      intro k hk
      have hk3 : k < 3 := by simpa using hk
      interval_cases k <;> rfl
    · simp only [markNotifiedProg, h]
      rw [markNotified_of_some h f t u s kw sr now]
      rfl
    · exact ⟨_, findSeen_markNotified_of_some h f t u s kw sr now,
        rfl, rfl, rfl⟩
    · rw [markNotified_of_some h f t u s kw sr now]
  | none =>
    refine ⟨?_, ?_, ?_, ?_, ?_, ?_⟩
    · simp only [markNotifiedProg, h]; rfl
    · simp only [markNotifiedProg, h]; rfl
    · simp only [markNotifiedProg, h]
      intro k hk
      have hk3 : k < 3 := by simpa using hk
      interval_cases k <;> rfl
    · simp only [markNotifiedProg, h]
      rw [markNotified_of_none h f t u s kw sr now]
      rfl
    · exact ⟨_, findSeen_markNotified_of_none h f t u s kw sr now,
        rfl, rfl, rfl⟩
    · rw [markNotified_of_none h f t u s kw sr now]

/-- C2 witness: the atomicity statement evaluated on a concrete call. -/
theorem mark_notified_single_transaction_witness :
    durableAfter DB.init
        (markNotifiedProg DB.init "p1" "f" "t" "u" 2 "kw" "ok" 5) 2 = DB.init
    ∧ (markNotifiedProg DB.init "p1" "f" "t" "u" 2 "kw" "ok" 5).countP
        Stmt.isCommit = 1
    ∧ (markNotified DB.init "p1" "f" "t" "u" 2 "kw" "ok" 5).notification_log
        = DB.init.notification_log ++ [notifLogRow "p1" "f" 2 "ok" 5] :=
  ⟨(mark_notified_single_transaction DB.init "p1" "f" "t" "u" 2 "kw" "ok"
      5).2.2.1 2 (by decide),
   (mark_notified_single_transaction DB.init "p1" "f" "t" "u" 2 "kw" "ok"
      5).1,
   (mark_notified_single_transaction DB.init "p1" "f" "t" "u" 2 "kw" "ok"
      5).2.2.2.2.2⟩

/-! ## C3 / C8: the retry loop of `RateLimitedClient.get` -/

/-- When every attempted request up to the budget returns a 429 without a
Retry-After header, the loop sleeps the 60-second default each time and exits
with the max-retries error. -/
theorem getGo_all_429 (resps : Nat → HResp) :
    ∀ (m a : Nat), (∀ i, a ≤ i → i < a + m → resps i = HResp.http 429 none) →
      getGo resps a m = (GetOutcome.maxRetries, List.replicate m 60) := by
  intro m
  induction m with
  | zero => intro a h; rfl
  | succ m ih =>
    intro a h
    have h0 : resps a = HResp.http 429 none := h a (le_refl a) (by omega)
    have hrec := ih (a + 1) (fun i h1 h2 => h i (by omega) (by omega))
    simp [getGo, h0, hrec, List.replicate_succ]

/-- When every attempted request up to the budget returns a 5xx status, the
loop sleeps the exponential backoff delays and exits with the max-retries
error. -/
theorem getGo_all_5xx (resps : Nat → HResp) :
    ∀ (m a : Nat),
      (∀ i, a ≤ i → i < a + m →
        ∃ st ra, resps i = HResp.http st ra ∧ 500 ≤ st) →
      getGo resps a m
        = (GetOutcome.maxRetries,
           (List.range m).map (fun i => (2 : Int) ^ (a + i) * 5)) := by
  intro m
  induction m with
  | zero => intro a h; rfl
  | succ m ih =>
    intro a h
    obtain ⟨st, ra, h0, hst⟩ := h a (le_refl a) (by omega)
    have h429 : (st == 429) = false := by
      have : st ≠ 429 := by omega
      simp [this]
    have hrec := ih (a + 1) (fun i h1 h2 => h i (by omega) (by omega))
    have hmap : ((List.range m).map (fun i => (2 : Int) ^ (a + 1 + i) * 5))
        = (List.range m).map (fun i => (2 : Int) ^ (a + (i + 1)) * 5) := by
      apply List.map_congr_left
      intro i _
      rw [show a + 1 + i = a + (i + 1) from by omega]
    simp [getGo, h0, h429, hst, hrec, hmap, List.range_succ_eq_map,
      List.map_map, Function.comp]

/-- C3 counterexample: against "for any number of consecutive 429 responses
the call never fails with the max-retries-exceeded error", three consecutive
429 responses with `max_retries = 3` do end in the max-retries error (each
429 re-enters the bounded `for attempt in range(max_retries)` loop). -/
theorem get_triple_429_hits_max_retries :
    rlGet (fun _ => HResp.http 429 none) 3
      = (GetOutcome.maxRetries, [60, 60, 60]) := rfl

/-- C3 (amended): a 429 makes `get` sleep for the Retry-After value (60
seconds when the header is absent) and retry, but the retry consumes the
bounded budget: the loop resumes with one fewer attempt remaining, and
`max_retries` consecutive 429 responses end in the max-retries-exceeded
error rather than retrying indefinitely. -/
theorem get_429_consumes_retry_budget :
    (∀ (resps : Nat → HResp) (ra : Option Int) (m : Nat),
      resps 0 = HResp.http 429 ra →
      rlGet resps (m + 1)
        = ((getGo resps 1 m).1, ra.getD 60 :: (getGo resps 1 m).2))
    ∧ (∀ (resps : Nat → HResp) (m : Nat),
        (∀ i, i < m → resps i = HResp.http 429 none) →
        rlGet resps m = (GetOutcome.maxRetries, List.replicate m 60)) := by
  constructor
  · intro resps ra m h
    simp [rlGet, getGo, h]
  · intro resps m h
    exact getGo_all_429 resps m 0 (fun i h1 h2 => h i (by omega))

/-- C3 witness: the amended statement evaluated on concrete response
streams. -/
theorem get_429_consumes_retry_budget_witness :
    rlGet (fun i => if i == 0 then HResp.http 429 (some 7) else HResp.ok "b") 2
      = ((getGo (fun i => if i == 0 then HResp.http 429 (some 7)
            else HResp.ok "b") 1 1).1,
         7 :: (getGo (fun i => if i == 0 then HResp.http 429 (some 7)
            else HResp.ok "b") 1 1).2)
    ∧ rlGet (fun _ => HResp.http 429 none) 2
        = (GetOutcome.maxRetries, List.replicate 2 60) :=
  ⟨get_429_consumes_retry_budget.1
      (fun i => if i == 0 then HResp.http 429 (some 7) else HResp.ok "b")
      (some 7) 1 rfl,
   get_429_consumes_retry_budget.2 (fun _ => HResp.http 429 none) 2
      (fun _ _ => rfl)⟩

/-- C8 (code bug at the non-429 4xx branch): the 5xx half of the claim holds
of the code — three consecutive 500 responses under `max_retries = 3` sleep
the backoff delays 5, 10 and 20 seconds and end in the max-retries error —
but a non-429 client error is not failed immediately: the raise of
`ClientResponseError` at http_client.py:103 sits inside the `try` and the
exception subclasses `ClientError`, so the `except` clause at line 110
catches it and retries with the same backoff, re-raising only on the final
attempt, contradicting the comment directly above the raise, which says
client errors are not retried.  Evaluated at the failing inputs: a 404
followed by a 200 succeeds after one 5-second backoff sleep, and three
consecutive 404s sleep 5 and then 10 seconds before the client error finally
propagates on the third attempt. -/
theorem get_4xx_is_retried :
    rlGet (fun i => if i == 0 then HResp.http 404 none else HResp.ok "ok") 3
      = (GetOutcome.success "ok", [5])
    ∧ rlGet (fun _ => HResp.http 404 none) 3
        = (GetOutcome.clientError 404, [5, 10])
    ∧ rlGet (fun _ => HResp.http 500 none) 3
        = (GetOutcome.maxRetries, [5, 10, 20]) :=
  ⟨rfl, rfl, rfl⟩

/-! ## C6: the category multiplier in `analyze` -/

/-- C6: `analyze` multiplies by 1.5 exactly once, applied to the
already-summed pattern score, iff the lower-cased category is in the fixed
priority set; with the keyword group governance = [treasury] and threshold
1.5, the title-matching post in category "Governance" scores 2.0 × 1.5 = 3.0
and triggers, the same post in "Off-topic" scores 2.0 and triggers, and a
body-only match in a non-priority category scores 1.0 and does not trigger. -/
theorem c6Gov_score : (analyze c6Analyzer c6PostGov).score = 3 := by
  rw [show (analyze c6Analyzer c6PostGov).score
      = ((0 : Score) + TITLE_WEIGHT) * CATEGORY_MULTIPLIER from rfl]
  norm_num [TITLE_WEIGHT, CATEGORY_MULTIPLIER]

theorem c6Gov_triggered : (analyze c6Analyzer c6PostGov).triggered = true := by
  rw [show (analyze c6Analyzer c6PostGov).triggered
      = decide ((3 / 2 : ℚ)
          ≤ ((0 : Score) + TITLE_WEIGHT) * CATEGORY_MULTIPLIER) from rfl,
    decide_eq_true_eq]
  norm_num [TITLE_WEIGHT, CATEGORY_MULTIPLIER]

theorem c6Off_score : (analyze c6Analyzer c6PostOff).score = 2 := by
  rw [show (analyze c6Analyzer c6PostOff).score
      = (0 : Score) + TITLE_WEIGHT from rfl]
  norm_num [TITLE_WEIGHT]

theorem c6Off_triggered : (analyze c6Analyzer c6PostOff).triggered = true := by
  rw [show (analyze c6Analyzer c6PostOff).triggered
      = decide ((3 / 2 : ℚ) ≤ (0 : Score) + TITLE_WEIGHT) from rfl,
    decide_eq_true_eq]
  norm_num [TITLE_WEIGHT]

theorem c6Body_score : (analyze c6Analyzer c6PostBody).score = 1 := by
  rw [show (analyze c6Analyzer c6PostBody).score
      = (0 : Score) + BODY_WEIGHT from rfl]
  norm_num [BODY_WEIGHT]

theorem c6Body_triggered :
    (analyze c6Analyzer c6PostBody).triggered = false := by
  rw [show (analyze c6Analyzer c6PostBody).triggered
      = decide ((3 / 2 : ℚ) ≤ (0 : Score) + BODY_WEIGHT) from rfl]
  simp only [decide_eq_false_iff_not]
  norm_num [BODY_WEIGHT]

theorem analyze_category_multiplier_once :
    (∀ (a : Analyzer) (post : ForumPost),
      (analyze a post).score
        = (rawAnalyze a post).1
            * (if PRIORITY_CATEGORIES.contains (strLower post.category)
               then CATEGORY_MULTIPLIER else 1))
    ∧ (analyze c6Analyzer c6PostGov).score = 3
    ∧ (analyze c6Analyzer c6PostGov).triggered = true
    ∧ (analyze c6Analyzer c6PostOff).score = 2
    ∧ (analyze c6Analyzer c6PostOff).triggered = true
    ∧ (analyze c6Analyzer c6PostBody).score = 1
    ∧ (analyze c6Analyzer c6PostBody).triggered = false := by
  refine ⟨?_, c6Gov_score, c6Gov_triggered, c6Off_score, c6Off_triggered,
    c6Body_score, c6Body_triggered⟩
  intro a post
  simp only [analyze]
  by_cases hc : PRIORITY_CATEGORIES.contains (strLower post.category) = true
  · simp [hc]
  · simp [hc]

/-! ## C4: disabling and re-enabling a built-in keyword -/

theorem alookup_eq_find? {α : Type} (k : String) (xs : List (String × α)) :
    alookup k xs = (xs.find? (fun kv => kv.1 == k)).map (fun kv => kv.2) := by
  induction xs with
  | nil => rfl
  | cons kv xs ih =>
    by_cases hk : (kv.1 == k) = true
    · rw [alookup, if_pos hk,
        List.find?_cons_of_pos (p := fun kv : String × α => kv.1 == k) _ hk]
      rfl
    · rw [alookup, if_neg hk,
        List.find?_cons_of_neg (p := fun kv : String × α => kv.1 == k) _ hk,
        ih]

theorem alookup_getAllKeywords (a : Analyzer) (g : String) :
    alookup g (getAllKeywords a)
      = (a.compiled.find? (fun gp => gp.1 == g)).map
          (fun gp => gp.2.map (fun q => q.pattern)) := by
  rw [alookup_eq_find?, getAllKeywords, List.find?_map, Option.map_map]
  rfl

theorem alookup_getAllKeywords_removeKeyword (a : Analyzer) (g p : String) :
    alookup g (getAllKeywords (removeKeyword a g p))
      = (a.compiled.find? (fun gp => gp.1 == g)).map
          (fun gp => (gp.2.filter (fun q => q.pattern != p)).map
            (fun q => q.pattern)) := by
  rw [alookup_getAllKeywords]
  simp only [removeKeyword]
  rw [find?_updateFirst_same (fun gp => gp.1 == g)
      (fun gp => (gp.1, gp.2.filter (fun q => q.pattern != p)))
      (fun x => rfl) a.compiled]
  cases a.compiled.find? (fun gp => gp.1 == g) <;> rfl

/-- Re-adding a compilable pattern puts its text back into its group in
`get_all_keywords()`. -/
theorem addKeyword_restores {sem : ReSem} {p : String}
    {f : String → Option String} (hc : sem p = some f) (a : Analyzer)
    (g : String) :
    ∃ a', addKeyword sem a g p = some a'
      ∧ ∃ l, alookup g (getAllKeywords a') = some l ∧ p ∈ l := by
  cases hany : a.compiled.any (fun gp => gp.1 == g) with
  | true =>
    refine ⟨{ a with
        compiled := updateFirst (fun gp => gp.1 == g)
          (fun gp => (gp.1, gp.2 ++ [⟨p, f⟩])) a.compiled }, ?_, ?_⟩
    · simp [addKeyword, hc, hany]
    · rw [alookup_getAllKeywords]
      simp only []
      rw [find?_updateFirst_same (fun gp => gp.1 == g)
          (fun gp => (gp.1, gp.2 ++ [⟨p, f⟩])) (fun x => rfl) a.compiled]
      have hsome : (a.compiled.find? (fun gp => gp.1 == g)).isSome := by
        rw [List.find?_isSome]
        exact List.any_eq_true.mp hany
      obtain ⟨gp, hgp⟩ := Option.isSome_iff_exists.mp hsome
      rw [hgp]
      exact ⟨_, rfl, by simp⟩
  | false =>
    refine ⟨{ a with compiled := a.compiled ++ [(g, [⟨p, f⟩])] }, ?_, ?_⟩
    · simp [addKeyword, hc, hany]
    · rw [alookup_getAllKeywords]
      simp only []
      rw [List.find?_append]
      have hnone : a.compiled.find? (fun gp => gp.1 == g) = none := by
        cases hfind : a.compiled.find? (fun gp => gp.1 == g) with
        | none => rfl
        | some gp =>
          have hany' : a.compiled.any (fun gp => gp.1 == g) = true := by
            rw [List.any_eq_true]
            exact ⟨gp,
              List.mem_of_find?_eq_some
                (p := fun gp : String × List Pattern => gp.1 == g) hfind,
              List.find?_some
                (p := fun gp : String × List Pattern => gp.1 == g) hfind⟩
          rw [hany'] at hany
          simp at hany
      rw [hnone]
      exact ⟨[p], by simp [List.find?], by simp⟩

theorem disableItem_of_has {db : DB} {k key : String}
    (h : hasDisabledItem db k key = true) (u : String) (t : Time) :
    disableItem db k key u t = db := by
  simp [disableItem, h]

theorem hasDisabledItem_disableItem (db : DB) (k key u : String) (t : Time) :
    hasDisabledItem (disableItem db k key u t) k key = true := by
  by_cases hc : hasDisabledItem db k key = true
  · rw [disableItem_of_has hc u t]
    exact hc
  · rw [disableItem, if_neg hc]
    simp [hasDisabledItem]

theorem hasDisabledItem_enableItem (db : DB) (k key : String) :
    hasDisabledItem (enableItem db k key) k key = false := by
  simp only [hasDisabledItem, enableItem]
  rw [Bool.eq_false_iff]
  intro h
  obtain ⟨x, hx, hpx⟩ := List.any_eq_true.mp h
  obtain ⟨_, hxneg⟩ := List.mem_filter.mp hx
  rw [hpx] at hxneg
  simp at hxneg

/-- C4 (spec-modelled disable/enable): disabling a built-in keyword removes
its pattern text from its group in `get_all_keywords()`; re-enabling it puts
the identical group and pattern text back and clears the
`DisabledItemRecord`; and `disable_item` / `enable_item` are idempotent
toggles on `DisabledItemRecord` existence. -/
theorem builtin_keyword_disable_enable_roundtrip :
    (∀ (db : DB) (a : Analyzer) (g p user : String) (now : Time)
        (l : List String),
      alookup g (getAllKeywords (disableBuiltinKeyword db a g p user now).2)
          = some l → p ∉ l)
    ∧ (∀ (sem : ReSem) (db : DB) (a : Analyzer) (g p user : String)
        (now : Time) (f : String → Option String), sem p = some f →
        ∃ db2 a2,
          enableBuiltinKeyword sem (disableBuiltinKeyword db a g p user now).1
              (disableBuiltinKeyword db a g p user now).2 g p
            = some (db2, a2)
          ∧ (∃ l, alookup g (getAllKeywords a2) = some l ∧ p ∈ l)
          ∧ hasDisabledItem db2 "keyword" (g ++ ":" ++ p) = false)
    ∧ (∀ (db : DB) (k key u u' : String) (t t' : Time),
        disableItem (disableItem db k key u t) k key u' t'
          = disableItem db k key u t)
    ∧ (∀ (db : DB) (k key : String),
        enableItem (enableItem db k key) k key = enableItem db k key)
    ∧ (∀ (db : DB) (k key u : String) (t : Time),
        hasDisabledItem (disableItem db k key u t) k key = true)
    ∧ (∀ (db : DB) (k key : String),
        hasDisabledItem (enableItem db k key) k key = false) := by
  refine ⟨?_, ?_, ?_, ?_, hasDisabledItem_disableItem,
    hasDisabledItem_enableItem⟩
  · intro db a g p user now l hl
    rw [show (disableBuiltinKeyword db a g p user now).2 = removeKeyword a g p
        from rfl, alookup_getAllKeywords_removeKeyword] at hl
    cases hfind : a.compiled.find? (fun gp => gp.1 == g) with
    | none => rw [hfind] at hl; cases hl
    | some gp =>
      rw [hfind] at hl
      injection hl with hl'
      intro hp
      rw [← hl'] at hp
      obtain ⟨q, hq, hqp⟩ := List.mem_map.mp hp
      obtain ⟨hq1, hq2⟩ := List.mem_filter.mp hq
      rw [hqp] at hq2
      simp at hq2
  · intro sem db a g p user now f hc
    obtain ⟨a2, hadd, l, hl, hpl⟩ :=
      addKeyword_restores hc (disableBuiltinKeyword db a g p user now).2 g
    refine ⟨enableItem (disableBuiltinKeyword db a g p user now).1 "keyword"
        (g ++ ":" ++ p), a2, ?_, ⟨l, hl, hpl⟩, ?_⟩
    · simp [enableBuiltinKeyword, hadd]
    · exact hasDisabledItem_enableItem _ _ _
  · intro db k key u u' t t'
    exact disableItem_of_has (hasDisabledItem_disableItem db k key u t) u' t'
  · intro db k key
    simp [enableItem, List.filter_filter]

/-- C4 witness: the round trip evaluated on the concrete analyzer. -/
theorem builtin_keyword_disable_enable_roundtrip_witness :
    ("treasury" ∉ ([] : List String))
    ∧ (∃ db2 a2,
        enableBuiltinKeyword litSem
            (disableBuiltinKeyword DB.init c6Analyzer "governance" "treasury"
              "u7" 3).1
            (disableBuiltinKeyword DB.init c6Analyzer "governance" "treasury"
              "u7" 3).2 "governance" "treasury"
          = some (db2, a2)
        ∧ (∃ l, alookup "governance" (getAllKeywords a2) = some l
            ∧ "treasury" ∈ l)
        ∧ hasDisabledItem db2 "keyword" ("governance" ++ ":" ++ "treasury")
            = false)
    ∧ hasDisabledItem
        (disableItem DB.init "keyword" "governance:treasury" "u7" 3)
        "keyword" "governance:treasury" = true :=
  ⟨builtin_keyword_disable_enable_roundtrip.1 DB.init c6Analyzer "governance"
      "treasury" "u7" 3 [] (by decide),
   builtin_keyword_disable_enable_roundtrip.2.1 litSem DB.init c6Analyzer
      "governance" "treasury" "u7" 3 (fun text => ciSearch "treasury" text)
      rfl,
   builtin_keyword_disable_enable_roundtrip.2.2.2.2.1 DB.init "keyword"
      "governance:treasury" "u7" 3⟩

/-! ## C9: failure isolation in `monitor_cycle` -/

theorem processPosts_no_delivery (a : Analyzer) (fd : Bool) (now : Time)
    (pid : String) :
    ∀ (posts : List PostEnv) (st : CycleState),
      (∀ pe ∈ posts, deliveryFails pe = true) →
      notifiedAt (processPosts a fd now st posts).1.db pid
          = notifiedAt st.db pid
      ∧ (processPosts a fd now st posts).1.alertsSent = st.alertsSent := by
  intro posts
  induction posts with
  | nil => intro st h; exact ⟨rfl, rfl⟩
  | cons pe rest ih =>
    intro st h
    have hpe : deliveryFails pe = true := h pe (List.mem_cons_self pe rest)
    have hrest : ∀ q ∈ rest, deliveryFails q = true :=
      fun q hq => h q (List.mem_cons_of_mem pe hq)
    cases he : effectivePost fd pe with
    | error e => simp [processPosts, he]
    | ok post =>
      by_cases ht : (analyze a post).triggered = true
      · by_cases hs : shouldNotify st.db post.post_id
            (analyze a post).score = true
        · cases hd : pe.deliver with
          | ok receipt => simp [deliveryFails, hd] at hpe
          | error e =>
            have hgoal : processPosts a fd now st (pe :: rest)
                = processPosts a fd now st rest := by
              simp [processPosts, he, ht, hs, hd]
            rw [hgoal]
            exact ih st hrest
        · have hs' : shouldNotify st.db post.post_id
              (analyze a post).score = false := Bool.eq_false_iff.mpr hs
          have hgoal : processPosts a fd now st (pe :: rest)
              = processPosts a fd now st rest := by
            simp [processPosts, he, ht, hs']
          rw [hgoal]
          exact ih st hrest
      · have ht' : (analyze a post).triggered = false :=
          Bool.eq_false_iff.mpr ht
        have hgoal : processPosts a fd now st (pe :: rest)
            = processPosts a fd now
              { st with
                db := markSeen st.db post.post_id post.forum_name post.title
                  post.url (analyze a post).score now }
              rest := by
          simp [processPosts, he, ht']
        rw [hgoal]
        refine ⟨(ih _ hrest).1.trans ?_, (ih _ hrest).2⟩
        exact notifiedAt_markSeen st.db post.post_id post.forum_name
          post.title post.url (analyze a post).score now pid

theorem processForum_no_delivery (a : Analyzer) (fd : Bool) (now : Time)
    (pid : String) (st : CycleState) (f : ForumEnv)
    (h : forumAllFail f = true) :
    notifiedAt (processForum a fd now st f).db pid = notifiedAt st.db pid
    ∧ (processForum a fd now st f).alertsSent = st.alertsSent := by
  cases hf : f.fetch with
  | error e => simp [processForum, hf]
  | ok posts =>
    have hall : ∀ pe ∈ posts, deliveryFails pe = true := by
      simp only [forumAllFail, hf] at h
      exact fun pe hpe => List.all_eq_true.mp h pe hpe
    have hp := processPosts_no_delivery a fd now pid posts st hall
    cases hres : processPosts a fd now st posts with
    | mk st' opt =>
      rw [hres] at hp
      cases opt with
      | none => simpa [processForum, hf, hres] using hp
      | some e => simpa [processForum, hf, hres] using hp

theorem cycle_foldl_no_delivery (a : Analyzer) (fd : Bool) (now : Time)
    (pid : String) :
    ∀ (forums : List ForumEnv) (st : CycleState),
      (∀ f ∈ forums, forumAllFail f = true) →
      notifiedAt (forums.foldl (processForum a fd now) st).db pid
          = notifiedAt st.db pid
      ∧ (forums.foldl (processForum a fd now) st).alertsSent
          = st.alertsSent := by
  intro forums
  induction forums with
  | nil => intro st h; exact ⟨rfl, rfl⟩
  | cons f rest ih =>
    intro st h
    rw [List.foldl_cons]
    have h1 := processForum_no_delivery a fd now pid st f
      (h f (List.mem_cons_self f rest))
    have h2 := ih (processForum a fd now st f)
      (fun q hq => h q (List.mem_cons_of_mem f hq))
    exact ⟨h2.1.trans h1.1, h2.2.trans h1.2⟩

/-- C9: a delivery exception for one post makes that post contribute nothing
to the cycle — `mark_notified` never runs for it and the remaining posts are
processed from the same state, so `notified_at` stays unset and a later
`should_notify` still returns true (in particular, in a cycle in which every
delivery raises, no `notified_at` changes and no alert is recorded); a fetch
exception for one forum only records its error alert and the remaining
forums are processed from the same ledger state. -/
theorem monitor_cycle_failure_isolation :
    (∀ (a : Analyzer) (fd : Bool) (now : Time) (st : CycleState)
        (pe : PostEnv) (rest : List PostEnv) (post : ForumPost) (e : String),
      effectivePost fd pe = Except.ok post →
      (analyze a post).triggered = true →
      shouldNotify st.db post.post_id (analyze a post).score = true →
      pe.deliver = Except.error e →
      processPosts a fd now st (pe :: rest) = processPosts a fd now st rest)
    ∧ (∀ (a : Analyzer) (fd : Bool) (now : Time) (db : DB)
        (forums : List ForumEnv) (pid : String),
        (∀ f ∈ forums, forumAllFail f = true) →
        notifiedAt (monitorCycle a fd now db forums).db pid
            = notifiedAt db pid
        ∧ (monitorCycle a fd now db forums).alertsSent = [])
    ∧ (∀ (a : Analyzer) (fd : Bool) (now : Time) (db : DB) (f : ForumEnv)
        (rest : List ForumEnv) (e : String), f.fetch = Except.error e →
        monitorCycle a fd now db (f :: rest)
          = rest.foldl (processForum a fd now) ⟨db, [], [(f.name, e)]⟩) := by
  refine ⟨?_, ?_, ?_⟩
  · intro a fd now st pe rest post e he ht hs hd
    simp [processPosts, he, ht, hs, hd]
  · intro a fd now db forums pid h
    exact cycle_foldl_no_delivery a fd now pid forums ⟨db, [], []⟩ h
  · intro a fd now db f rest e hf
    simp only [monitorCycle, List.foldl_cons]
    congr 1
    simp [processForum, hf]

/-- C9 witness: the isolation statement evaluated on a concrete environment
with one failing forum and one post whose delivery raises. -/
theorem monitor_cycle_failure_isolation_witness :
    processPosts c6Analyzer false 0 ⟨DB.init, [], []⟩
        [⟨c6PostGov, Except.ok none, Except.error "slack down"⟩]
      = processPosts c6Analyzer false 0 ⟨DB.init, [], []⟩ []
    ∧ (notifiedAt (monitorCycle c6Analyzer false 0 DB.init
          [⟨"f1", Except.error "boom"⟩,
           ⟨"f2", Except.ok [⟨c6PostGov, Except.ok none,
              Except.error "slack down"⟩]⟩]).db "arbitrum_101"
        = notifiedAt DB.init "arbitrum_101"
      ∧ (monitorCycle c6Analyzer false 0 DB.init
          [⟨"f1", Except.error "boom"⟩,
           ⟨"f2", Except.ok [⟨c6PostGov, Except.ok none,
              Except.error "slack down"⟩]⟩]).alertsSent = [])
    ∧ monitorCycle c6Analyzer false 0 DB.init [⟨"f1", Except.error "boom"⟩]
        = ([] : List ForumEnv).foldl (processForum c6Analyzer false 0)
            ⟨DB.init, [], [("f1", "boom")]⟩ :=
  ⟨monitor_cycle_failure_isolation.1 c6Analyzer false 0 ⟨DB.init, [], []⟩
      ⟨c6PostGov, Except.ok none, Except.error "slack down"⟩ [] c6PostGov
      "slack down" rfl c6Gov_triggered rfl rfl,
   monitor_cycle_failure_isolation.2.1 c6Analyzer false 0 DB.init
      [⟨"f1", Except.error "boom"⟩,
       ⟨"f2", Except.ok [⟨c6PostGov, Except.ok none,
          Except.error "slack down"⟩]⟩] "arbitrum_101" (by decide),
   monitor_cycle_failure_isolation.2.2 c6Analyzer false 0 DB.init
      ⟨"f1", Except.error "boom"⟩ [] "boom" rfl⟩

end DAOMonitor
